/- Verification of the bracket-pair AST core of this repository
   (src/crates/language/src/ast.rs).  The Rust enum `AstNode` and its five
   variants are embedded as a Lean inductive; `usize`/`u64` quantities are
   modelled as `Nat` (no operation of the file relies on wrap-around), the
   `SmallVec<[usize; 4]>` id collections as `List Nat`, and the `TextModel`
   trait as a structure of functions. -/
import Mathlib

/-- Model of `usize::MAX` on a 64-bit target: the "no constraint" sentinel
returned by the indentation queries and by `position(..).unwrap_or`. -/
def usizeMax : Nat := 2 ^ 64 - 1

/-- Translation of `BracketAstNode` (ast.rs lines 325-335). -/
structure BracketAstNode where
  length : Nat
  bracket_type : Char
  position : Nat
  metadata : Option String

/-- Translation of `InvalidBracketAstNode` (ast.rs lines 337-349). -/
structure InvalidBracketAstNode where
  length : Nat
  bracket_type : Char
  position : Nat
  expected_bracket_type : Option Char
  metadata : Option String

/-- Translation of `TextAstNode` (ast.rs lines 351-356). -/
structure TextAstNode where
  length : Nat
  text : String

/-- Translation of `AstNodeKind` (ast.rs lines 5-15). -/
inductive AstNodeKind where
  | Text
  | Bracket
  | Pair
  | UnexpectedClosingBracket
  | List
deriving DecidableEq

/-- Translation of the enum `AstNode` (ast.rs lines 17-27) with the fields of
`PairAstNode` (lines 161-171) and `ListAstNode` (lines 256-266) inlined into
their constructors.  The Rust `Option<&'a AstNode<'a>>` interior of a Pair is
embedded here as the referenced node's value (`Option AstNode`); the
address-level view needed to reason about reference sharing is the separate
type `MemAstNode` below. -/
inductive AstNode where
  | Pair (length : Nat) (opening_bracket : BracketAstNode)
      (child : Option AstNode) (closing_bracket : Option BracketAstNode)
      (missing_opening_bracket_ids : List Nat)
  | List (length : Nat) (list_height : Nat)
      (missing_opening_bracket_ids : List Nat) (children : List AstNode)
  | Bracket (node : BracketAstNode)
  | InvalidBracket (node : InvalidBracketAstNode)
  | Text (node : TextAstNode)

/-- The type of `SmallVec<[usize; 4]>` id collections; named so that it stays
visible inside the `AstNode` namespace, where the bare name `List` denotes the
constructor `AstNode.List`. -/
abbrev NatList := List Nat

/-- A sequence of nodes (`Vec<&AstNode>` / `Vec<Box<AstNode>>`); named so that
it stays visible inside the `AstNode` namespace. -/
abbrev AstNodeList := List AstNode

/-- Translation of the trait `TextModel` (ast.rs lines 153-157): the
read-only text accessor; `get_text_range` takes the start and (exclusive) end
of the range. -/
structure TextModel where
  get_text_range : Nat → Nat → String
  get_line : Nat → String

/-- Translation of `AstNode::kind` (ast.rs lines 30-42). -/
def AstNode.kind : AstNode → AstNodeKind
  | .Pair _ _ _ _ _ => AstNodeKind.Pair
  | .List _ _ _ _ => AstNodeKind.List
  | .Bracket _ => AstNodeKind.Bracket
  | .InvalidBracket _ => AstNodeKind.UnexpectedClosingBracket
  | .Text _ => AstNodeKind.Text

/-- Translation of `AstNode::children_length` (ast.rs lines 44-52) with the
variant impls `PairAstNode::children_length` (lines 174-176, constant 3) and
`ListAstNode::children_length` (lines 269-271); the wildcard arm maps every
leaf to 0. -/
def AstNode.children_length : AstNode → Nat
  | .Pair _ _ _ _ _ => 3
  | .List _ _ _ cs => cs.length
  | _ => 0

/-- Translation of `AstNode::get_child` (ast.rs lines 54-62) with
`PairAstNode::get_child` (lines 178-191: slot 0 is the opening bracket, slot 1
the optional interior, slot 2 the optional closing bracket, anything else
`None`) and `ListAstNode::get_child` (lines 273-275: `children.get(idx)`);
leaves fall through the wildcard arm to `None`. -/
def AstNode.get_child : AstNode → Nat → Option AstNode
  | .Pair _ ob _ _ _, 0 => some (AstNode.Bracket ob)
  | .Pair _ _ child _ _, 1 => child
  | .Pair _ _ _ cb _, 2 => cb.map (fun b => AstNode.Bracket b)
  | .Pair _ _ _ _ _, _ => none
  | .List _ _ _ cs, idx => cs[idx]?
  | _, _ => none

/-- Translation of `AstNode::children` (ast.rs lines 64-72) with
`PairAstNode::children` (lines 193-217: pushes the opening bracket, then the
interior child if present, then the closing bracket if present) and
`ListAstNode::children` (lines 277-279); leaves yield the empty vector. -/
def AstNode.children : AstNode → AstNodeList
  | .Pair _ ob child cb _ =>
      [AstNode.Bracket ob]
        ++ (match child with | some c => [c] | none => [])
        ++ (match cb with | some b => [AstNode.Bracket b] | none => [])
  | .List _ _ _ cs => cs
  | _ => []

/-- Translation of `AstNode::missing_opening_bracket_ids` (ast.rs lines
74-82): Pair and List return (a clone of) their stored id set, leaves the
empty set. -/
def AstNode.missing_opening_bracket_ids : AstNode → NatList
  | .Pair _ _ _ _ ids => ids
  | .List _ _ ids _ => ids
  | _ => []

/-- Translation of `AstNode::list_height` (ast.rs lines 84-92) with
`PairAstNode::list_height` (lines 251-253, constant 0) and
`ListAstNode::list_height` (lines 320-322). -/
def AstNode.list_height : AstNode → Nat
  | .Pair _ _ _ _ _ => 0
  | .List _ h _ _ => h
  | _ => 0

/-- Translation of `AstNode::length` (ast.rs lines 94-106).  Note the source
lists explicit arms only for Pair, List, Bracket and Text; `InvalidBracket`
falls through the wildcard arm `_ => 0`, ignoring its stored `length` field. -/
def AstNode.length : AstNode → Nat
  | .Pair len _ _ _ _ => len
  | .List len _ _ _ => len
  | .Bracket b => b.length
  | .Text t => t.length
  | _ => 0

/-- Translation of `AstNode::can_be_reused` (ast.rs lines 108-116) with
`PairAstNode::can_be_reused` (lines 245-249) and `ListAstNode::can_be_reused`
(lines 301-305): every stored missing-opener id must be contained in the
caller-supplied open-id collection; leaves fall through the wildcard arm to
`false`. -/
def AstNode.can_be_reused : AstNode → NatList → Bool
  | .Pair _ _ _ _ ids, open_bracket_ids =>
      ids.all (fun id => open_bracket_ids.contains id)
  | .List _ _ ids _, open_bracket_ids =>
      ids.all (fun id => open_bracket_ids.contains id)
  | _, _ => false

/-- Translation of `AstNode::flatten_lists` (ast.rs lines 118-126) with
`PairAstNode::flatten_lists` (lines 241-243) and `ListAstNode::flatten_lists`
(lines 281-283), each of which returns the node itself (`self`); leaves return
`self` through the wildcard arm. -/
def AstNode.flatten_lists : AstNode → AstNode
  | .Pair len ob child cb ids => .Pair len ob child cb ids
  | .List len h ids cs => .List len h ids cs
  | n => n

/-- Model of Rust `char::is_whitespace` (the Unicode `White_Space` property),
used by `ListAstNode::compute_min_indentation` (ast.rs line 313). -/
def rustIsWhitespace (c : Char) : Bool :=
  let n := c.toNat
  decide ((0x9 ≤ n ∧ n ≤ 0xD) ∨ n = 0x20 ∨ n = 0x85 ∨ n = 0xA0 ∨ n = 0x1680 ∨
    (0x2000 ≤ n ∧ n ≤ 0x200A) ∨ n = 0x2028 ∨ n = 0x2029 ∨ n = 0x202F ∨
    n = 0x205F ∨ n = 0x3000)

/-- Model of Rust `str::split_inclusive(newline)` on a character list: each
segment keeps its terminating newline; an empty input yields no segments. -/
def splitInclusiveNl : List Char → List (List Char)
  | [] => []
  | '\n' :: rest => ['\n'] :: splitInclusiveNl rest
  | c :: rest =>
      match splitInclusiveNl rest with
      | [] => [[c]]
      | l :: ls => (c :: l) :: ls

/-- Model of the per-segment map of Rust `str::lines`: strip one trailing
newline, and if one was stripped also strip one trailing carriage return. -/
def rustLineOfSegment (l : List Char) : List Char :=
  if l.getLast? = some '\n' then
    let l := l.dropLast
    if l.getLast? = some '\r' then l.dropLast else l
  else l

/-- Model of Rust `str::lines`, used by `ListAstNode::compute_min_indentation`
(ast.rs line 310). -/
def rustLines (s : String) : List String :=
  (splitInclusiveNl s.toList).map (fun seg => String.mk (rustLineOfSegment seg))

/-- Model of `line.chars().position(|c| !c.is_whitespace()).unwrap_or(usize::MAX)`
(ast.rs lines 312-314): the column of the first non-whitespace character of a
line, or the sentinel when the line is blank or whitespace-only. -/
def firstNonWsCol (line : String) : Nat :=
  match line.toList.findIdx? (fun c => ! rustIsWhitespace c) with
  | some i => i
  | none => usizeMax

/-- The minimum first-non-whitespace column over the lines of a text, the
sentinel when there is none: the composition `lines → map position → min →
unwrap_or(usize::MAX)` of ast.rs lines 310-317. -/
def minIndentOfText (text : String) : Nat :=
  (((rustLines text).map firstNonWsCol).min?).getD usizeMax

/-- Translation of `AstNode::compute_min_indentation` (ast.rs lines 142-150)
with `PairAstNode::compute_min_indentation` (lines 233-239: recurse into the
interior child, if any, at `offset + opening_bracket.length`, else the
sentinel) and `ListAstNode::compute_min_indentation` (lines 307-318: fetch the
text of `[offset, offset+length)` from the text model and take the minimum
first-non-whitespace column over its lines); leaves fall through the wildcard
arm to the sentinel. -/
def AstNode.compute_min_indentation : AstNode → Nat → TextModel → Nat
  | .Pair _ ob (some child) _ _, offset, tm =>
      child.compute_min_indentation (offset + ob.length) tm
  | .Pair _ _ none _ _, _, _ => usizeMax
  | .List len _ _ _, offset, tm =>
      let text := tm.get_text_range offset (offset + len)
      (((rustLines text).map firstNonWsCol).min?).getD usizeMax
  | _, _, _ => usizeMax

/-- A concrete `TextModel` backed by a string, for evaluating the indentation
queries on the spec's examples. -/
def stringTextModel (s : String) : TextModel where
  get_text_range := fun start stop => String.mk ((s.toList.drop start).take (stop - start))
  get_line := fun i => (rustLines s).getD i ""

/-- Address-level view of `AstNode`, used to reason about reference sharing:
the Rust interior of a Pair is a borrowed reference, `child: Option<&'a
AstNode<'a>>` (ast.rs line 166), modelled here as the address (`Option Nat`)
of a node owned by another tree, while a List owns its children
(`Vec<Box<AstNode>>`, line 265), modelled as nested values. -/
inductive MemAstNode where
  | Pair (length : Nat) (opening_bracket : BracketAstNode)
      (child : Option Nat) (closing_bracket : Option BracketAstNode)
      (missing_opening_bracket_ids : List Nat)
  | List (length : Nat) (list_height : Nat)
      (missing_opening_bracket_ids : List Nat) (children : List MemAstNode)
  | Bracket (node : BracketAstNode)
  | InvalidBracket (node : InvalidBracketAstNode)
  | Text (node : TextAstNode)

/-- A sequence of address-level nodes; named so that it stays visible inside
the `MemAstNode` namespace. -/
abbrev MemAstNodeList := List MemAstNode

mutual
/-- Translation of `AstNode::deep_clone` (ast.rs lines 128-140) over the
address-level view, with `PairAstNode::deep_clone` (lines 219-231) and
`ListAstNode::deep_clone` (lines 285-299).  The Pair arm mirrors
`child: self.child`: the borrowed child reference is copied as-is, so the
clone keeps pointing at the source tree's node; the List arm clones each
owned child recursively. -/
def MemAstNode.deep_clone : MemAstNode → MemAstNode
  | .Pair len ob child cb ids => .Pair len ob child cb ids
  | .List len h ids cs => .List len h ids (MemAstNode.deep_clone_list cs)
  | .Bracket b => .Bracket b
  | .InvalidBracket ib => .InvalidBracket ib
  | .Text t => .Text t

/-- The element-wise clone of `ListAstNode::deep_clone`'s
`children.iter().map(|child| Box::new(child.deep_clone())).collect()`
(ast.rs lines 293-297). -/
def MemAstNode.deep_clone_list : MemAstNodeList → MemAstNodeList
  | [] => []
  | c :: cs => c.deep_clone :: MemAstNode.deep_clone_list cs
end

/-- The address stored in a Pair node's borrowed `child` field (`none` for the
other variants). -/
def MemAstNode.pair_child_addr : MemAstNode → Option Nat
  | .Pair _ _ child _ _ => child
  | _ => none

/-- Helper: boolean `List.contains` agrees with membership on `List Nat`. -/
theorem list_contains_iff_mem {S : List Nat} {a : Nat} :
    S.contains a = true ↔ a ∈ S := by
  simp [List.contains, List.elem_iff]

/-- Claim C1: for every Pair or List node and every open-id set `S`,
`can_be_reused S` is true iff every id in the node's
`missing_opening_bracket_ids` is an element of `S`; for every leaf node
(Bracket, InvalidBracket, Text) and every `S`, `can_be_reused S` is false. -/
theorem can_be_reused_spec :
    (∀ len ob child cb ids S,
        (AstNode.Pair len ob child cb ids).can_be_reused S = true ↔
          ∀ id ∈ (AstNode.Pair len ob child cb ids).missing_opening_bracket_ids, id ∈ S)
    ∧ (∀ len h ids cs S,
        (AstNode.List len h ids cs).can_be_reused S = true ↔
          ∀ id ∈ (AstNode.List len h ids cs).missing_opening_bracket_ids, id ∈ S)
    ∧ (∀ b S, (AstNode.Bracket b).can_be_reused S = false)
    ∧ (∀ ib S, (AstNode.InvalidBracket ib).can_be_reused S = false)
    ∧ (∀ t S, (AstNode.Text t).can_be_reused S = false) := by
  refine ⟨?_, ?_, fun _ _ => rfl, fun _ _ => rfl, fun _ _ => rfl⟩ <;>
    intros <;>
    simp [AstNode.can_be_reused, AstNode.missing_opening_bracket_ids,
      list_contains_iff_mem]

/-- Claim C2: evaluation at the failing input.  An `InvalidBracket` node whose
stored `length` field is 5 reports `length() = 0`: the source's match lists
explicit arms only for Pair, List, Bracket and Text, and `InvalidBracket`
falls through the wildcard arm `_ => 0`, contradicting the claim (and the
spec's length contract) that every leaf reports its own stored field. -/
theorem length_invalid_bracket_eval :
    (AstNode.InvalidBracket ⟨5, ')', 0, none, none⟩).length = 0
    ∧ InvalidBracketAstNode.length ⟨5, ')', 0, none, none⟩ = 5
    ∧ (AstNode.InvalidBracket ⟨5, ')', 0, none, none⟩).length ≠
        InvalidBracketAstNode.length ⟨5, ')', 0, none, none⟩ := by
  refine ⟨rfl, rfl, ?_⟩
  decide

/-- Claim C3: evaluation at the failing input.  For a Pair whose interior is a
borrowed reference to the source tree's node at address 7, `deep_clone` copies
the borrow (`child: self.child`), so the clone's interior is the very same
source-tree node (address 7) rather than an independent copy: the clone shares
substructure with the source tree. -/
theorem deep_clone_pair_shares_child :
    ((MemAstNode.Pair 5 ⟨1, '(', 0, none⟩ (some 7) none []).deep_clone).pair_child_addr
        = (MemAstNode.Pair 5 ⟨1, '(', 0, none⟩ (some 7) none []).pair_child_addr
    ∧ ((MemAstNode.Pair 5 ⟨1, '(', 0, none⟩ (some 7) none []).deep_clone).pair_child_addr
        = some 7 := by
  exact ⟨rfl, rfl⟩

/-- Claim C4, counterexample: a Bracket leaf of length 1 has no missing
opening-bracket ids, yet `can_be_reused` returns `false`, not `true` as the
claim states — leaves always fall through the wildcard arm to `false`. -/
theorem bracket_reuse_claim_false :
    ¬ ((AstNode.Bracket ⟨1, '(', 0, none⟩).can_be_reused [] = true) := by
  decide

/-- Claim C4, amended: every Bracket leaf has an empty
`missing_opening_bracket_ids` set, but `can_be_reused` returns `false` for it
on every open-id set `S`; reuse is signalled only at Pair/List granularity, so
a builder cannot use `can_be_reused` to justify reusing bracket leaves. -/
theorem bracket_leaf_reuse (b : BracketAstNode) (S : List Nat) :
    (AstNode.Bracket b).missing_opening_bracket_ids = []
    ∧ (AstNode.Bracket b).can_be_reused S = false :=
  ⟨rfl, rfl⟩

/-- Claim C5: a List node's `compute_min_indentation offset tm` asks the text
model for the text of `[offset, offset+length)`, splits it into lines and
returns the minimum first-non-whitespace column over those lines (blank or
whitespace-only lines contribute the sentinel, hence no constraint), never
recursing into its children (the result is independent of `children`,
`list_height` and the id set); a List spanning only blank lines returns the
maximum sentinel, and a List spanning `"  a\n b\n   c"` returns 1. -/
theorem list_compute_min_indentation_spec :
    (∀ len h ids cs offset tm,
        (AstNode.List len h ids cs).compute_min_indentation offset tm
          = minIndentOfText (tm.get_text_range offset (offset + len)))
    ∧ (AstNode.List 4 0 [] []).compute_min_indentation 0
        (stringTextModel "\n  \n") = usizeMax
    ∧ (AstNode.List 11 0 [] []).compute_min_indentation 0
        (stringTextModel "  a\n b\n   c") = 1 := by
  refine ⟨fun _ _ _ _ _ _ => rfl, ?_, ?_⟩ <;> decide

/-- Claim C6: a Pair node's `compute_min_indentation offset tm` equals the
interior child's `compute_min_indentation` at `offset + opening_bracket.length`
when the interior is present, and the maximum sentinel when it is absent; the
bracket glyphs themselves never contribute. -/
theorem pair_compute_min_indentation_spec :
    (∀ len ob (c : AstNode) cb ids offset tm,
        (AstNode.Pair len ob (some c) cb ids).compute_min_indentation offset tm
          = c.compute_min_indentation (offset + ob.length) tm)
    ∧ (∀ len ob cb ids offset tm,
        (AstNode.Pair len ob none cb ids).compute_min_indentation offset tm
          = usizeMax) :=
  ⟨fun _ _ _ _ _ _ _ => rfl, fun _ _ _ _ _ _ => rfl⟩

/-- Claim C7: `children_length` returns 3 for every Pair (even with absent
interior or closing slots), the actual child count for every List, and 0 for
every leaf; and `get_child i` returns `none` rather than failing whenever
`children_length ≤ i` or the addressed Pair slot is absent. -/
theorem children_access_spec :
    (∀ len ob child cb ids, (AstNode.Pair len ob child cb ids).children_length = 3)
    ∧ (∀ len h ids cs, (AstNode.List len h ids cs).children_length = cs.length)
    ∧ (∀ b, (AstNode.Bracket b).children_length = 0)
    ∧ (∀ ib, (AstNode.InvalidBracket ib).children_length = 0)
    ∧ (∀ t, (AstNode.Text t).children_length = 0)
    ∧ (∀ (n : AstNode) (i : Nat), n.children_length ≤ i → n.get_child i = none)
    ∧ (∀ len ob cb ids, (AstNode.Pair len ob none cb ids).get_child 1 = none)
    ∧ (∀ len ob child ids, (AstNode.Pair len ob child none ids).get_child 2 = none) := by
  refine ⟨fun _ _ _ _ _ => rfl, fun _ _ _ _ => rfl, fun _ => rfl, fun _ => rfl,
    fun _ => rfl, ?_, fun _ _ _ _ => rfl, fun _ _ _ _ => rfl⟩
  intro n i h
  match n, i with
  | .Pair _ _ _ _ _, 0 => simp [AstNode.children_length] at h
  | .Pair _ _ _ _ _, 1 => simp [AstNode.children_length] at h
  | .Pair _ _ _ _ _, 2 => simp [AstNode.children_length] at h
  | .Pair _ _ _ _ _, (k + 3) => rfl
  | .List _ _ _ cs, i =>
      simp only [AstNode.children_length] at h
      simpa [AstNode.get_child] using List.getElem?_eq_none h
  | .Bracket _, _ => rfl
  | .InvalidBracket _, _ => rfl
  | .Text _, _ => rfl

/-- Witness for claim C7's hypothesis: a concrete Bracket leaf has
`children_length = 0 ≤ 2`, and `get_child 2` is `none`. -/
theorem children_access_spec_witness :
    (AstNode.Bracket ⟨1, '(', 0, none⟩).children_length ≤ 2
    ∧ (AstNode.Bracket ⟨1, '(', 0, none⟩).get_child 2 = none :=
  ⟨by decide, children_access_spec.2.2.2.2.2.1 (AstNode.Bracket ⟨1, '(', 0, none⟩) 2 (by decide)⟩

/-- Claim C8: `flatten_lists` is the identity on every node of every variant;
no actual flattening of nested Lists is performed. -/
theorem flatten_lists_identity (n : AstNode) : n.flatten_lists = n := by
  cases n <;> rfl

/-- Claim C9: a Pair's `children` returns only the slots actually present —
the opening bracket, then the interior child only if present, then the closing
bracket only if present — so it has between 1 and 3 elements, and it can be
strictly smaller than `children_length`, which is always 3 for a Pair. -/
theorem pair_children_spec :
    (∀ len ob child cb ids,
        (AstNode.Pair len ob child cb ids).children
          = AstNode.Bracket ob :: (child.toList ++ (cb.map AstNode.Bracket).toList))
    ∧ (∀ len ob child cb ids,
        1 ≤ ((AstNode.Pair len ob child cb ids).children).length
        ∧ ((AstNode.Pair len ob child cb ids).children).length ≤ 3)
    ∧ (∃ len ob child cb ids,
        ((AstNode.Pair len ob child cb ids).children).length
          < (AstNode.Pair len ob child cb ids).children_length) := by
  refine ⟨?_, ?_, ?_⟩
  · intro len ob child cb ids
    cases child <;> cases cb <;> rfl
  · intro len ob child cb ids
    cases child <;> cases cb <;> simp [AstNode.children]
  · exact ⟨0, ⟨1, '(', 0, none⟩, none, none, [], by decide⟩

/-- Claim C10: for every leaf node (Bracket, InvalidBracket, Text), every
offset and every text model, `compute_min_indentation` returns the maximum
sentinel, without consulting the text model at all (the result does not depend
on `tm`). -/
theorem leaf_compute_min_indentation_spec :
    (∀ b offset tm, (AstNode.Bracket b).compute_min_indentation offset tm = usizeMax)
    ∧ (∀ ib offset tm,
        (AstNode.InvalidBracket ib).compute_min_indentation offset tm = usizeMax)
    ∧ (∀ t offset tm, (AstNode.Text t).compute_min_indentation offset tm = usizeMax) :=
  ⟨fun _ _ _ => rfl, fun _ _ _ => rfl, fun _ _ _ => rfl⟩
